import Mathlib

/-!
Verification of the in-memory ephemeral content store with broadcast fan-out
implemented in `server.cjs` of the WIFI file-sharing repository.

The embedding follows the source closely:
* `sharedContent` (a JS `Map`, line 68) is modelled as an association list in
  insertion order, with `Map.set` / `Map.get` / `Map.delete` semantics.
* `connectedClients` (a JS `Set`, line 69) is modelled as a duplicate-free
  insertion-ordered list.
* Each request/socket handler is a pure function from its inputs and the
  current state to the new state together with the ordered list of
  side-effecting `Action`s it performs (store mutations and socket emissions),
  in the statement order of the source.
* Clock values (`Date.now()`) and generated ids (`uuidv4()`) are parameters,
  as are the external collaborators (the `marked` markdown renderer).
-/

namespace WifiShare

/-- The `type` discriminator field of a shared-content record
(`'file'` in line 132, `'text'` in line 190 of server.cjs). -/
inductive ContentType where
  | file
  | text
deriving DecidableEq, Repr

/-- The `metadata` object built in lines 173-186 of server.cjs: starts empty
(`{}`), and when the URL regex matches, `hasLinks` is set to `true` and
`firstUrl` to the first match.  Absent JS fields are `none`. -/
structure Metadata where
  hasLinks : Option Bool
  firstUrl : Option String
deriving DecidableEq, Repr

/-- A shared-content record as stored in `sharedContent`.  JS objects of the
two variants (file: lines 130-140, text: lines 188-196) are merged into one
record type with optional fields, absent fields being `none` — this mirrors
the client-side `SharedContent` TypeScript interface.  `buffer` holds the raw
payload bytes of a file entry. -/
structure Entry where
  id : String
  type : ContentType
  filename : Option String
  mimetype : Option String
  size : Option Nat
  buffer : Option (List Nat)
  uploadedAt : Option Nat
  downloadUrl : Option String
  content : Option String
  processedContent : Option String
  metadata : Option Metadata
  sharedAt : Option Nat
  expiresAt : Nat
deriving DecidableEq, Repr

/-- The `sharedContent` JS `Map` (line 68), as an association list from id to
entry in insertion order (JS `Map` iteration order). -/
abbrev Store := List (String × Entry)

/-- JS `Map.prototype.set`: replace in place when the key is present
(keeping its position in iteration order), otherwise append at the end. -/
def mapSet (s : Store) (k : String) (v : Entry) : Store :=
  if s.any (fun p => p.1 = k) then
    s.map (fun p => if p.1 = k then (k, v) else p)
  else
    s ++ [(k, v)]

/-- JS `Map.prototype.get`: the value of the first (unique) binding of `k`. -/
def mapGet (s : Store) (k : String) : Option Entry :=
  (s.find? (fun p => p.1 = k)).map Prod.snd

/-- JS `Map.prototype.delete`: remove the binding of `k` if present. -/
def mapDelete (s : Store) (k : String) : Store :=
  s.filter (fun p => p.1 ≠ k)

/-- `Array.from(sharedContent.values())`: all stored entries in insertion
order. -/
def storeValues (s : Store) : List Entry :=
  s.map Prod.snd

/-- The listing operation the spec calls `listAll`: the source computes it as
`Array.from(sharedContent.values())` (line 108 of server.cjs, the
`currentContent` sent to a newly connected client). -/
def listAll (s : Store) : List Entry :=
  storeValues s

/-- JS `Set.prototype.add` on `connectedClients`: append if absent. -/
def setAdd (s : List String) (x : String) : List String :=
  if x ∈ s then s else s ++ [x]

/-- JS `Set.prototype.delete` on `connectedClients`. -/
def setDelete (s : List String) (x : String) : List String :=
  s.filter (fun y => y ≠ x)

/-- One side effect performed by a handler, in program order: a mutation of
`sharedContent`, or an emission on the socket layer.  `emitNewContent`,
`emitContentRemoved` and `emitClientCount` are `io.emit(...)` broadcasts to
every currently connected client; `emitInitialContent` is the
`socket.emit('initialContent', ...)` sent to one specific client. -/
inductive Action where
  | storeInsert (id : String) (e : Entry)
  | storeDelete (id : String)
  | emitNewContent (e : Entry)
  | emitContentRemoved (id : String)
  | emitInitialContent (socketId : String) (entries : List Entry)
  | emitClientCount (n : Nat)
  | registerClient (socketId : String)
  | unregisterClient (socketId : String)
deriving DecidableEq, Repr

/-- The `entry-view` of the spec: the `clientData` built in lines 145-146 of
server.cjs (`{ ...fileData }` followed by `delete clientData.buffer`) — the
entry with the `buffer` field removed and every other field unchanged. -/
def entryView (e : Entry) : Entry :=
  { e with buffer := none }

/-- The fixed TTL: `10 * 60 * 1000` milliseconds (lines 128 and 170). -/
def ttlMillis : Nat := 10 * 60 * 1000

/-- The `/api/upload` handler body after multer validation (lines 121-159 of
server.cjs): builds `fileData`, inserts it into `sharedContent`, then
broadcasts `newContent` with `clientData` (the entry minus its buffer).
`now` is `Date.now()` and `fileId` the fresh `uuidv4()`.  Returns the new
store and the ordered side effects. -/
def uploadHandler (now : Nat) (fileId : String) (filename mimetype : String)
    (size : Nat) (buffer : List Nat) (s : Store) : Store × List Action :=
  let fileData : Entry :=
    { id := fileId
      type := ContentType.file
      filename := some filename
      mimetype := some mimetype
      size := some size
      buffer := some buffer
      uploadedAt := some now
      downloadUrl := some ("/api/download/" ++ fileId)
      content := none
      processedContent := none
      metadata := none
      sharedAt := none
      expiresAt := now + ttlMillis }
  (mapSet s fileId fileData,
   [Action.storeInsert fileId fileData,
    Action.emitNewContent (entryView fileData)])

/-- JS regex `\s` (whitespace class), as used by `[^\s]` in the URL regex of
line 181 and by `String.prototype.trim` in line 165. -/
def isJsWhitespace (c : Char) : Bool :=
  c = ' ' || c = '\t' || c = '\n' || c = '\r' || c.val = 0x0B || c.val = 0x0C ||
  c.val = 0xA0 || c.val = 0x1680 ||
  (0x2000 ≤ c.val && c.val ≤ 0x200A) ||
  c.val = 0x2028 || c.val = 0x2029 || c.val = 0x202F || c.val = 0x205F ||
  c.val = 0x3000 || c.val = 0xFEFF

/-- Greedy `[^\s]+` starting here: the maximal run of non-whitespace
characters. -/
def takeNonWhitespace : List Char → List Char
  | [] => []
  | c :: rest => if isJsWhitespace c then [] else c :: takeNonWhitespace rest

/-- Whether the regex `https?:\/\/[^\s]+` (line 181 of server.cjs) matches at
the start of `l`, and the matched substring if so.  The alternation prefers
the longer literal `https://`; the `[^\s]+` part is greedy and requires at
least one character. -/
def matchUrlAt (l : List Char) : Option (List Char) :=
  if l.take 8 = "https://".toList then
    match takeNonWhitespace (l.drop 8) with
    | [] => none
    | run => some ("https://".toList ++ run)
  else if l.take 7 = "http://".toList then
    match takeNonWhitespace (l.drop 7) with
    | [] => none
    | run => some ("http://".toList ++ run)
  else none

/-- Leftmost match of the URL regex: `text.match(urlRegex)[0]` when the match
array is non-null (lines 182-185 of server.cjs). -/
def findFirstUrl : List Char → Option (List Char)
  | [] => none
  | c :: rest =>
    match matchUrlAt (c :: rest) with
    | some u => some u
    | none => findFirstUrl rest

/-- Lines 173 and 180-186 of server.cjs: `metadata` starts as `{}`; if the
URL regex matches the raw `text`, `hasLinks` is set to `true` and `firstUrl`
to the first match. -/
def computeMetadata (text : String) : Metadata :=
  match findFirstUrl text.toList with
  | none => { hasLinks := none, firstUrl := none }
  | some u => { hasLinks := some true, firstUrl := some (String.mk u) }

/-- JS `String.prototype.trim` on a character list. -/
def jsTrim (l : List Char) : List Char :=
  ((l.dropWhile isJsWhitespace).reverse.dropWhile isJsWhitespace).reverse

/-- The `/api/share-text` handler body (lines 161-212 of server.cjs).
Returns `none` for the 400 rejection of empty/whitespace-only text
(`!text || text.trim().length === 0`); otherwise builds `contentData`
(with `processedContent` rendered through the external `marked` — the
`markedFn` parameter — exactly when `ty = "markdown"`), inserts it, and
broadcasts the full `contentData` as `newContent`.  `now` is `Date.now()`
and `contentId` the fresh `uuidv4()`. -/
def shareTextHandler (now : Nat) (contentId : String) (text : String)
    (ty : String) (markedFn : String → String) (s : Store) :
    Option (Store × List Action) :=
  if (jsTrim text.toList).length = 0 then none
  else
    let processedContent := if ty = "markdown" then markedFn text else text
    let metadata := computeMetadata text
    let contentData : Entry :=
      { id := contentId
        type := ContentType.text
        filename := none
        mimetype := none
        size := none
        buffer := none
        uploadedAt := none
        downloadUrl := none
        content := some text
        processedContent := some processedContent
        metadata := some metadata
        sharedAt := some now
        expiresAt := now + ttlMillis }
    some (mapSet s contentId contentData,
          [Action.storeInsert contentId contentData,
           Action.emitNewContent contentData])

/-- Outcome of the `/api/download/:fileId` route: 404 (`File not found`),
410 (`File has expired`), or 200 with the entry whose buffer is served. -/
inductive DownloadResult where
  | notFound
  | expired
  | ok (e : Entry)
deriving DecidableEq, Repr

/-- The `/api/download/:fileId` handler (lines 214-239 of server.cjs): 404
when the id is absent or the entry is not a file; when `Date.now() >
expiresAt`, delete the entry (lazy eviction) and answer 410; otherwise serve
the stored entry (headers from its metadata, body `fileData.buffer`). -/
def downloadHandler (now : Nat) (s : Store) (fileId : String) :
    Store × DownloadResult :=
  match mapGet s fileId with
  | none => (s, DownloadResult.notFound)
  | some fileData =>
    if fileData.type ≠ ContentType.file then (s, DownloadResult.notFound)
    else if now > fileData.expiresAt then
      (mapDelete s fileId, DownloadResult.expired)
    else (s, DownloadResult.ok fileData)

/-- The store left by one tick of the expiration cleanup (lines 93-101 of
server.cjs): the loop walks the entries in insertion order and deletes every
entry with `now > content.expiresAt`. -/
def sweepStore (now : Nat) : Store → Store
  | [] => []
  | (id, c) :: rest =>
    if now > c.expiresAt then sweepStore now rest
    else (id, c) :: sweepStore now rest

/-- The ids removed (and hence broadcast via `contentRemoved`) by one tick of
the expiration cleanup, in the order the loop deletes them. -/
def sweepIds (now : Nat) : Store → List String
  | [] => []
  | (id, c) :: rest =>
    if now > c.expiresAt then id :: sweepIds now rest
    else sweepIds now rest

/-- The side effects of one tick of the expiration cleanup in program order:
for each expired entry, the `sharedContent.delete(id)` (line 97) immediately
followed by the `io.emit('contentRemoved', id)` (line 98). -/
def sweepTrace (now : Nat) : Store → List Action
  | [] => []
  | (id, c) :: rest =>
    if now > c.expiresAt then
      Action.storeDelete id :: Action.emitContentRemoved id :: sweepTrace now rest
    else sweepTrace now rest

/-- The `io.on('connection')` handler (lines 104-112 of server.cjs): add the
socket id to `connectedClients`, send this socket the `initialContent`
snapshot `Array.from(sharedContent.values())`, then broadcast the updated
`clientCount` to all clients.  Returns the new client set and the ordered
side effects. -/
def connectionHandler (socketId : String) (clients : List String) (s : Store) :
    List String × List Action :=
  let clients' := setAdd clients socketId
  (clients',
   [Action.registerClient socketId,
    Action.emitInitialContent socketId (storeValues s),
    Action.emitClientCount clients'.length])

/-- The `socket.on('disconnect')` handler (lines 114-117 of server.cjs):
remove the socket id from `connectedClients`, then broadcast the updated
`clientCount`. -/
def disconnectHandler (socketId : String) (clients : List String) :
    List String × List Action :=
  let clients' := setDelete clients socketId
  (clients',
   [Action.unregisterClient socketId,
    Action.emitClientCount clients'.length])

/-- Every `newContent` broadcast in the trace is strictly preceded by the
store insertion of an entry with the same id. -/
def addOrdered (tr : List Action) : Prop :=
  ∀ e l1 l2, tr = l1 ++ Action.emitNewContent e :: l2 →
    ∃ fd, Action.storeInsert e.id fd ∈ l1

/-- Every `contentRemoved` broadcast in the trace is strictly preceded by the
store deletion of that id. -/
def removeOrdered (tr : List Action) : Prop :=
  ∀ id l1 l2, tr = l1 ++ Action.emitContentRemoved id :: l2 →
    Action.storeDelete id ∈ l1

/-- The `fileData` record produced by an upload of `report.pdf` (3 bytes
`[1, 2, 3]`) at time 0 with generated id `"f1"`. -/
def demoFile1 : Entry :=
  { id := "f1"
    type := ContentType.file
    filename := some "report.pdf"
    mimetype := some "application/pdf"
    size := some 3
    buffer := some [1, 2, 3]
    uploadedAt := some 0
    downloadUrl := some "/api/download/f1"
    content := none
    processedContent := none
    metadata := none
    sharedAt := none
    expiresAt := ttlMillis }

/-- The store reached from empty by that single upload. -/
def demoStore1 : Store :=
  (uploadHandler 0 "f1" "report.pdf" "application/pdf" 3 [1, 2, 3] []).1

/-- The `fileData` record of a second upload (`notes.txt`, byte `[7]`) at
time 1 with generated id `"f2"`. -/
def demoFile2 : Entry :=
  { id := "f2"
    type := ContentType.file
    filename := some "notes.txt"
    mimetype := some "text/plain"
    size := some 1
    buffer := some [7]
    uploadedAt := some 1
    downloadUrl := some "/api/download/f2"
    content := none
    processedContent := none
    metadata := none
    sharedAt := none
    expiresAt := 1 + ttlMillis }

/-- The store reached by uploading `"f1"` at time 0 and then `"f2"` at
time 1. -/
def demoStore2 : Store :=
  (uploadHandler 1 "f2" "notes.txt" "text/plain" 1 [7] demoStore1).1

/-- The `contentData` record produced by sharing the text
`"Check https://example.com now"` at time 0 in markdown mode (with a stub
renderer), generated id `"t2"`. -/
def demoTextEntry : Entry :=
  { id := "t2"
    type := ContentType.text
    filename := none
    mimetype := none
    size := none
    buffer := none
    uploadedAt := none
    downloadUrl := none
    content := some "Check https://example.com now"
    processedContent := some "<p>rendered</p>"
    metadata := some { hasLinks := some true, firstUrl := some "https://example.com" }
    sharedAt := some 0
    expiresAt := ttlMillis }

/-- The store holding just that text entry. -/
def demoTextStore : Store :=
  mapSet [] "t2" demoTextEntry

/-- The side effects of that text share. -/
def demoTextTrace : List Action :=
  [Action.storeInsert "t2" demoTextEntry, Action.emitNewContent demoTextEntry]

lemma mem_of_mapGet_eq_some {s : Store} {k : String} {e : Entry}
    (h : mapGet s k = some e) : (k, e) ∈ s := by
  unfold mapGet at h
  rcases Option.map_eq_some'.mp h with ⟨p, hfind, hsnd⟩
  have hmem := List.mem_of_find?_eq_some hfind
  have hp := List.find?_some hfind
  simp only [decide_eq_true_eq] at hp
  cases p
  simp_all

lemma mapGet_mapSet_self (s : Store) (k : String) (v : Entry) :
    mapGet (mapSet s k v) k = some v := by
  unfold mapSet
  by_cases hany : s.any (fun p => p.1 = k) = true
  · simp only [hany, if_true]
    induction s with
    | nil => simp at hany
    | cons p rest ih =>
      by_cases hp : p.1 = k
      · simp [mapGet, List.find?, hp]
      · have : rest.any (fun p => p.1 = k) = true := by
          simp only [List.any_cons] at hany
          rcases Bool.or_eq_true_iff.mp hany with h1 | h2
          · exact absurd (of_decide_eq_true h1) hp
          · exact h2
        have := ih this
        simpa [mapGet, List.find?, hp] using this
  · simp only [hany, if_false]
    induction s with
    | nil => simp [mapGet, List.find?]
    | cons p rest ih =>
      have hp : ¬ p.1 = k := by
        intro hh
        exact hany (by simp [List.any_cons, hh])
      have hrest : ¬ rest.any (fun p => p.1 = k) = true := by
        intro hh
        exact hany (by simp [List.any_cons, hh])
      have := ih hrest
      simpa [mapGet, List.find?, hp] using this

lemma mapGet_mapDelete_self (s : Store) (k : String) :
    mapGet (mapDelete s k) k = none := by
  unfold mapGet mapDelete
  rw [Option.map_eq_none']
  rw [List.find?_eq_none]
  intro p hp
  have := (List.mem_filter.mp hp).2
  simpa using this

lemma mapSet_of_absent (s : Store) (k : String) (v : Entry)
    (h : mapGet s k = none) : mapSet s k v = s ++ [(k, v)] := by
  unfold mapGet at h
  rw [Option.map_eq_none', List.find?_eq_none] at h
  have hany : s.any (fun p => p.1 = k) = false := by
    rw [Bool.eq_false_iff]
    intro hc
    rcases List.any_eq_true.mp hc with ⟨p, hp, hpk⟩
    exact h p hp hpk
  simp [mapSet, hany]

lemma sweepStore_eq_filter (now : Nat) (s : Store) :
    sweepStore now s = s.filter (fun p => !decide (now > p.2.expiresAt)) := by
  induction s with
  | nil => rfl
  | cons p rest ih =>
    cases p with
    | mk id c =>
      by_cases h : now > c.expiresAt
      · simp [sweepStore, h, List.filter, ih]
      · simp [sweepStore, h, List.filter, ih]

lemma sweepIds_eq_filter (now : Nat) (s : Store) :
    sweepIds now s = (s.filter (fun p => decide (now > p.2.expiresAt))).map Prod.fst := by
  induction s with
  | nil => rfl
  | cons p rest ih =>
    cases p with
    | mk id c =>
      by_cases h : now > c.expiresAt
      · simp [sweepIds, h, List.filter, ih]
      · simp [sweepIds, h, List.filter, ih]

lemma emit_mem_sweepTrace_iff (now : Nat) (s : Store) (id : String) :
    Action.emitContentRemoved id ∈ sweepTrace now s ↔ id ∈ sweepIds now s := by
  induction s with
  | nil => simp [sweepTrace, sweepIds]
  | cons p rest ih =>
    cases p with
    | mk id0 c =>
      by_cases h : now > c.expiresAt
      · simp [sweepTrace, sweepIds, h, ih]
      · simp [sweepTrace, sweepIds, h, ih]

lemma sweepIds_sweepStore (now : Nat) (s : Store) :
    sweepIds now (sweepStore now s) = [] := by
  induction s with
  | nil => rfl
  | cons p rest ih =>
    cases p with
    | mk id c =>
      by_cases h : now > c.expiresAt
      · simpa [sweepStore, h] using ih
      · simpa [sweepStore, sweepIds, h] using ih

lemma addOrdered_insert_emit (id : String) (fd e : Entry) (h : e.id = id) :
    addOrdered [Action.storeInsert id fd, Action.emitNewContent e] := by
  intro e' l1 l2 heq
  match l1 with
  | [] => simp at heq
  | [x] =>
    simp only [List.cons_append, List.nil_append, List.cons.injEq] at heq
    obtain ⟨hx, he, -⟩ := heq
    have he2 : e = e' := by injection he
    refine ⟨fd, ?_⟩
    rw [← he2, h, hx]
    exact List.mem_singleton.mpr rfl
  | x :: y :: l1' =>
    simp only [List.cons_append, List.cons.injEq] at heq
    have hnil : l1' ++ Action.emitNewContent e' :: l2 = [] := heq.2.2.symm
    rw [List.append_eq_nil] at hnil
    exact absurd hnil.2 (List.cons_ne_nil _ _)

lemma removeOrdered_sweepTrace (now : Nat) (s : Store) :
    removeOrdered (sweepTrace now s) := by
  induction s with
  | nil =>
    intro id l1 l2 heq
    exact absurd heq.symm (by simp [sweepTrace])
  | cons p rest ih =>
    cases p with
    | mk id0 c =>
      by_cases h : now > c.expiresAt
      · intro id l1 l2 heq
        rw [sweepTrace, if_pos h] at heq
        match l1 with
        | [] => simp at heq
        | [x] =>
          simp only [List.cons_append, List.nil_append, List.cons.injEq] at heq
          obtain ⟨hx, hid, -⟩ := heq
          have hid2 : id0 = id := by injection hid
          rw [← hid2, hx]
          exact List.mem_singleton.mpr rfl
        | x :: y :: l1' =>
          simp only [List.cons_append, List.cons.injEq] at heq
          have := ih id l1' l2 heq.2.2
          exact List.mem_cons_of_mem x (List.mem_cons_of_mem y this)
      · intro id l1 l2 heq
        rw [sweepTrace, if_neg h] at heq
        exact ih id l1 l2 heq

lemma sweepStore_idem (now : Nat) (s : Store) :
    sweepStore now (sweepStore now s) = sweepStore now s := by
  induction s with
  | nil => rfl
  | cons p rest ih =>
    cases p with
    | mk id c =>
      by_cases h : now > c.expiresAt
      · simpa [sweepStore, h] using ih
      · simp [sweepStore, h, ih]

/-- C1: the upload route's `newContent` broadcast does strip the raw payload
(`clientData` is the entry-view, buffer removed, all other fields unchanged),
but the `initialContent` snapshot sent to a newly connecting observer
(line 108-109 of server.cjs) forwards the stored entries verbatim, raw
`buffer` included — contradicting the claim and the code's own comment
`Don't send buffer to clients`.  Evaluated at a store holding one uploaded
file with payload `[1, 2, 3]`. -/
theorem initial_snapshot_sends_raw_buffer :
    (uploadHandler 0 "f1" "report.pdf" "application/pdf" 3 [1, 2, 3] []).2 =
      [Action.storeInsert "f1" demoFile1,
       Action.emitNewContent (entryView demoFile1)]
    ∧ (connectionHandler "c1" [] demoStore1).2 =
      [Action.registerClient "c1",
       Action.emitInitialContent "c1" [demoFile1],
       Action.emitClientCount 1]
    ∧ demoFile1.buffer = some [1, 2, 3]
    ∧ entryView demoFile1 ≠ demoFile1 := by decide

/-- C2 counterexample: at call time `now = 700000` the file entry of
`demoStore1` has `expiresAt = 600000 ≤ now`, yet it is in the `listAll`
result — the listing does not exclude expired entries. -/
theorem listAll_includes_expired_cex :
    demoFile1.expiresAt ≤ 700000 ∧ demoFile1 ∈ listAll demoStore1 := by decide

/-- C2 (amended): `listAll` performs no expiry filtering: every entry
physically in the store — expired or not — appears in its result; entries
past expiry drop out only once a sweep removes them from the store. -/
theorem listAll_no_expiry_filter :
    (∀ (s : Store) (id : String) (e : Entry),
        mapGet s id = some e → e ∈ listAll s)
    ∧ (∀ (now : Nat) (s : Store) (e : Entry),
        e ∈ listAll (sweepStore now s) → now ≤ e.expiresAt) := by
  constructor
  · intro s id e h
    exact List.mem_map_of_mem Prod.snd (mem_of_mapGet_eq_some h)
  · intro now s e h
    rw [listAll, storeValues, sweepStore_eq_filter] at h
    rcases List.mem_map.mp h with ⟨p, hp, hpe⟩
    have hcond := (List.mem_filter.mp hp).2
    simp only [Bool.not_eq_true', decide_eq_false_iff_not, gt_iff_lt, not_lt] at hcond
    rw [← hpe]
    exact hcond

/-- C2 witness: the expired entry of `demoStore1` is in `listAll`. -/
theorem listAll_no_expiry_filter_witness :
    demoFile1 ∈ listAll demoStore1 :=
  listAll_no_expiry_filter.1 demoStore1 "f1" demoFile1 (by decide)

/-- C3 counterexample: after inserting `"f1"` then `"f2"`, `listAll` returns
them in insertion order (`f1` first), not reversed. -/
theorem listAll_not_reversed_cex :
    listAll demoStore2 = [demoFile1, demoFile2]
    ∧ [demoFile1, demoFile2] ≠ [demoFile2, demoFile1] := by decide

/-- C3 (amended): `listAll` returns the stored entries in insertion order,
most recently inserted last: inserting a fresh id appends its entry at the
end of the listing.  (The newest-first presentation is produced client-side
by prepending `newContent` broadcasts, not by this operation.) -/
theorem listAll_insertion_order :
    ∀ (s : Store) (id : String) (e : Entry),
      mapGet s id = none → listAll (mapSet s id e) = listAll s ++ [e] := by
  intro s id e h
  rw [mapSet_of_absent s id e h]
  simp [listAll, storeValues]

/-- C3 witness: inserting `"f2"` into `demoStore1` appends its entry. -/
theorem listAll_insertion_order_witness :
    listAll (mapSet demoStore1 "f2" demoFile2) = listAll demoStore1 ++ [demoFile2] :=
  listAll_insertion_order demoStore1 "f2" demoFile2 (by decide)

/-- C4 counterexample: at `now = expiresAt` (here `ttlMillis`), the download
route still serves the file (`Date.now() > expiresAt` is strict), with no
eviction — the claim's `now >= expiresAt` boundary and `NotFound` result do
not match the code. -/
theorem download_at_expiry_boundary_cex :
    ttlMillis ≥ demoFile1.expiresAt
    ∧ downloadHandler ttlMillis demoStore1 "f1" = (demoStore1, DownloadResult.ok demoFile1) := by
  decide

/-- C4 (amended): for a stored file entry, the download route serves the
entry while `now ≤ expiresAt`; once `now > expiresAt` the first lookup
removes the entry (lazy eviction) and answers `Expired` (HTTP 410,
distinguished from `NotFound`), and a second lookup answers `NotFound`,
confirming the eviction — so no lookup ever serves content once
`now > expiresAt`, even between sweeps. -/
theorem download_lazy_eviction :
    ∀ (s : Store) (id : String) (e : Entry) (now : Nat),
      mapGet s id = some e → e.type = ContentType.file →
      (now ≤ e.expiresAt → downloadHandler now s id = (s, DownloadResult.ok e))
      ∧ (now > e.expiresAt →
          downloadHandler now s id = (mapDelete s id, DownloadResult.expired)
          ∧ downloadHandler now (mapDelete s id) id = (mapDelete s id, DownloadResult.notFound)) := by
  intro s id e now hget htype
  constructor
  · intro hle
    have hngt : ¬ now > e.expiresAt := by omega
    simp [downloadHandler, hget, htype, hngt]
  · intro hgt
    constructor
    · simp [downloadHandler, hget, htype, hgt]
    · simp [downloadHandler, mapGet_mapDelete_self]

/-- C4 witness: the file of `demoStore1` (expiresAt `600000`) is served at
`now = 5`, evicted with `Expired` at `now = 600001`, and a second lookup at
`now = 600001` answers `NotFound`. -/
theorem download_lazy_eviction_witness :
    downloadHandler 5 demoStore1 "f1" = (demoStore1, DownloadResult.ok demoFile1)
    ∧ downloadHandler 600001 demoStore1 "f1" = (mapDelete demoStore1 "f1", DownloadResult.expired)
    ∧ downloadHandler 600001 (mapDelete demoStore1 "f1") "f1" =
        (mapDelete demoStore1 "f1", DownloadResult.notFound) := by
  have h1 := download_lazy_eviction demoStore1 "f1" demoFile1 5 (by decide) (by decide)
  have h2 := download_lazy_eviction demoStore1 "f1" demoFile1 600001 (by decide) (by decide)
  exact ⟨h1.1 (by decide), (h2.2 (by decide)).1, (h2.2 (by decide)).2⟩

/-- C5 counterexample: an entry whose `expiresAt` equals `now` is kept by the
sweep (`now > content.expiresAt` is strict), so the swept set is not
`expiresAt ≤ now`. -/
theorem sweep_at_boundary_cex :
    demoFile1.expiresAt ≤ ttlMillis
    ∧ sweepStore ttlMillis demoStore1 = demoStore1
    ∧ sweepIds ttlMillis demoStore1 = [] := by decide

/-- C5 (amended): a sweep at time `now` removes exactly the entries with
`expiresAt < now` (keeping exactly those with `now ≤ expiresAt`), returns
precisely the ids of the removed entries, and broadcasts `contentRemoved`
for precisely those ids. -/
theorem sweep_removes_exactly_strictly_expired :
    ∀ (now : Nat) (s : Store),
      sweepStore now s = s.filter (fun p => !decide (now > p.2.expiresAt))
      ∧ sweepIds now s = (s.filter (fun p => decide (now > p.2.expiresAt))).map Prod.fst
      ∧ ∀ id, Action.emitContentRemoved id ∈ sweepTrace now s ↔ id ∈ sweepIds now s :=
  fun now s =>
    ⟨sweepStore_eq_filter now s, sweepIds_eq_filter now s,
     fun id => emit_mem_sweepTrace_iff now s id⟩

/-- C7: the sweep is idempotent — a second sweep at the same `now` removes
nothing (its removed-id set is empty and the store is unchanged). -/
theorem sweep_idempotent :
    ∀ (now : Nat) (s : Store),
      sweepIds now (sweepStore now s) = []
      ∧ sweepStore now (sweepStore now s) = sweepStore now s :=
  fun now s => ⟨sweepIds_sweepStore now s, sweepStore_idem now s⟩

/-- C6: within one entry's lifecycle the store mutation strictly precedes the
corresponding broadcast: in the upload and text-share handler traces every
`newContent` emission is preceded by the insertion of an entry with that id,
and in the sweep trace every `contentRemoved` emission is preceded by the
deletion of that id. -/
theorem insert_before_broadcast :
    (∀ (now : Nat) (fid fn mt : String) (sz : Nat) (buf : List Nat) (s : Store),
        addOrdered (uploadHandler now fid fn mt sz buf s).2)
    ∧ (∀ (now : Nat) (cid text ty : String) (f : String → String) (s : Store)
        (out : Store × List Action),
        shareTextHandler now cid text ty f s = some out → addOrdered out.2)
    ∧ (∀ (now : Nat) (s : Store), removeOrdered (sweepTrace now s)) := by
  refine ⟨?_, ?_, ?_⟩
  · intro now fid fn mt sz buf s
    exact addOrdered_insert_emit fid _ _ rfl
  · intro now cid text ty f s out h
    unfold shareTextHandler at h
    by_cases hc : (jsTrim text.toList).length = 0
    · rw [if_pos hc] at h
      exact absurd h (by simp)
    · rw [if_neg hc] at h
      injection h with h
      subst h
      exact addOrdered_insert_emit cid _ _ rfl
  · exact removeOrdered_sweepTrace

/-- C6 witness: concrete uploads, text shares and sweeps with ordered
traces. -/
theorem insert_before_broadcast_witness :
    addOrdered (uploadHandler 0 "f1" "report.pdf" "application/pdf" 3 [1, 2, 3] []).2
    ∧ addOrdered demoTextTrace
    ∧ removeOrdered (sweepTrace 700000 demoStore1) :=
  ⟨insert_before_broadcast.1 0 "f1" "report.pdf" "application/pdf" 3 [1, 2, 3] [],
   insert_before_broadcast.2.1 0 "t2" "Check https://example.com now" "markdown"
     (fun _ => "<p>rendered</p>") [] (demoTextStore, demoTextTrace) (by decide),
   insert_before_broadcast.2.2 700000 demoStore1⟩

/-- C8: the stored text entry's `metadata` is `computeMetadata` of the raw
text — the leftmost `https?://`-followed-by-non-whitespace match — for every
rendering mode `ty` and renderer `f`; and on the text
`"Check https://example.com now"` it yields `hasLinks = true` and
`firstUrl = "https://example.com"`. -/
theorem link_metadata_from_raw_text :
    (∀ (now : Nat) (cid text ty : String) (f : String → String) (s : Store)
        (out : Store × List Action),
        shareTextHandler now cid text ty f s = some out →
        ∃ e : Entry, mapGet out.1 cid = some e
          ∧ e.metadata = some (computeMetadata text)
          ∧ e.content = some text)
    ∧ computeMetadata "Check https://example.com now" =
        { hasLinks := some true, firstUrl := some "https://example.com" } := by
  constructor
  · intro now cid text ty f s out h
    unfold shareTextHandler at h
    by_cases hc : (jsTrim text.toList).length = 0
    · rw [if_pos hc] at h
      exact absurd h (by simp)
    · rw [if_neg hc] at h
      injection h with h
      subst h
      exact ⟨_, mapGet_mapSet_self s cid _, rfl, rfl⟩
  · decide

/-- C8 witness: the shared `"Check https://example.com now"` entry carries
exactly the raw-scan metadata. -/
theorem link_metadata_witness :
    ∃ e : Entry, mapGet demoTextStore "t2" = some e
      ∧ e.metadata = some (computeMetadata "Check https://example.com now")
      ∧ e.content = some "Check https://example.com now" :=
  link_metadata_from_raw_text.1 0 "t2" "Check https://example.com now" "markdown"
    (fun _ => "<p>rendered</p>") [] (demoTextStore, demoTextTrace) (by decide)

/-- C9: on connect the hub registers the observer, then sends it the
`initialContent` snapshot `listAll` of the current store, then broadcasts the
updated observer count — a count taken after registration, so it includes the
new observer; on disconnect it deregisters and broadcasts the count of the
remaining observers. -/
theorem observer_connect_disconnect_protocol :
    ∀ (sid : String) (clients : List String) (s : Store),
      (connectionHandler sid clients s).2 =
        [Action.registerClient sid,
         Action.emitInitialContent sid (listAll s),
         Action.emitClientCount (connectionHandler sid clients s).1.length]
      ∧ sid ∈ (connectionHandler sid clients s).1
      ∧ (disconnectHandler sid clients).2 =
        [Action.unregisterClient sid,
         Action.emitClientCount (disconnectHandler sid clients).1.length]
      ∧ sid ∉ (disconnectHandler sid clients).1 := by
  intro sid clients s
  refine ⟨rfl, ?_, rfl, ?_⟩
  · by_cases h : sid ∈ clients
    · simp [connectionHandler, setAdd, h]
    · simp [connectionHandler, setAdd, h]
  · simp [disconnectHandler, setDelete]

/-- C10: the download route serves only file entries: for a stored text
entry it answers `NotFound` (404) at every time, live or not, leaving the
store untouched. -/
theorem download_text_entry_not_found :
    ∀ (now : Nat) (s : Store) (id : String) (e : Entry),
      mapGet s id = some e → e.type = ContentType.text →
      downloadHandler now s id = (s, DownloadResult.notFound) := by
  intro now s id e hget htype
  simp [downloadHandler, hget, htype]

/-- C10 witness: the live text entry of `demoTextStore` at `now = 5` gets a
404 from the download route. -/
theorem download_text_entry_not_found_witness :
    downloadHandler 5 demoTextStore "t2" = (demoTextStore, DownloadResult.notFound) :=
  download_text_entry_not_found 5 demoTextStore "t2" demoTextEntry (by decide) (by decide)

end WifiShare
